import Mathlib

/- Shallow embedding of the jarvis-realtime voice-assistant orchestrator
(TypeScript) in Lean 4.  Strings are modelled as lists of characters where
character-level scanning matters; JavaScript regular-expression tests used by
the source are expanded into equivalent explicit scanners.  Rational numbers
stand for the JavaScript floating-point numbers of the source (every comparison
exercised here is exact at the modelled values); the JavaScript division of a
positive number by zero yielding Infinity is modelled by the `JNum` type. -/

namespace Jarvis

namespace Js

/- JavaScript character class `\s`, restricted to ASCII (the Unicode space
characters never occur in the phrases and inputs of this code base). -/
def isSpaceChar (c : Char) : Bool :=
  c = ' ' || c = '\t' || c = '\n' || c = '\r' || c = '\x0b' || c = '\x0c'

/- JavaScript character class `\w` = `[A-Za-z0-9_]`. -/
def isWordChar (c : Char) : Bool :=
  c.isAlphanum || c = '_'

/- `String.prototype.toLowerCase` (ASCII). -/
def lowerL (cs : List Char) : List Char := cs.map Char.toLower

/- The pattern list occurs at the head of the text
(`String.prototype.startsWith`). -/
def headMatch : List Char → List Char → Bool
  | [], _ => true
  | _ :: _, [] => false
  | x :: xs, y :: ys => x = y && headMatch xs ys

/- `String.prototype.includes`. -/
def containsL (needle : List Char) : List Char → Bool
  | [] => headMatch needle []
  | c :: rest => headMatch needle (c :: rest) || containsL needle rest

def containsAny (cs : List Char) (needles : List String) : Bool :=
  needles.any fun n => containsL n.toList cs

def startsWithAny (cs : List Char) (needles : List String) : Bool :=
  needles.any fun n => headMatch n.toList cs

/- `String.prototype.endsWith`. -/
def endsWithL (needle cs : List Char) : Bool :=
  headMatch needle.reverse cs.reverse

/- `String.prototype.trim` (ASCII whitespace). -/
def trimL (cs : List Char) : List Char :=
  ((cs.dropWhile isSpaceChar).reverse.dropWhile isSpaceChar).reverse

/- `text.split(regex)` where the regular expression is a character class with a
`+` quantifier: maximal runs of separator characters split the text, and empty
pieces at the edges are kept, as in JavaScript.  `inSep` records whether the
scanner is inside a separator run whose piece boundary was already emitted. -/
def splitRunsGo (p : Char → Bool) (inSep : Bool) (cur : List Char) :
    List Char → List (List Char)
  | [] => [cur.reverse]
  | c :: rest =>
      if p c then
        if inSep then splitRunsGo p true [] rest
        else cur.reverse :: splitRunsGo p true [] rest
      else splitRunsGo p false (c :: cur) rest

def splitRuns (p : Char → Bool) (cs : List Char) : List (List Char) :=
  splitRunsGo p false [] cs

/- `text.split(c)` for a single-character separator: every occurrence splits,
empty pieces are kept, as in JavaScript. -/
def splitChar (sep : Char) : List Char → List (List Char)
  | [] => [[]]
  | c :: rest =>
      if c = sep then [] :: splitChar sep rest
      else
        match splitChar sep rest with
        | h :: t => (c :: h) :: t
        | [] => [[c]]

/- `pieces.join(sep)`. -/
def joinChar (sep : Char) (pieces : List (List Char)) : List Char :=
  (pieces.intersperse [sep]).flatten

end Js

/- Component: WakeWordService (src/services/wake-word). -/
namespace WakeWord

structure Config where
  wakeWords : List String
  interruptWords : List String
  sensitivity : ℚ
  debounceMs : ℤ

inductive DetectionType
  | wake
  | interrupt
deriving DecidableEq

structure Detection where
  type : DetectionType
  word : String
  confidence : ℚ
  timestamp : ℤ
deriving DecidableEq

/- One row of the dynamic-programming matrix built by
`WakeWordService.calculateSimilarity`: `diag` is `matrix[i-1][j-1]`, `left` is
`matrix[i][j-1]`, and `ups` runs over `matrix[i-1][j..]` while `ys` runs over
the remaining characters of the second string. -/
def levRowGo (c : Char) : Nat → Nat → List Char → List Nat → List Nat
  | _, _, [], _ => []
  | _, _, _ :: _, [] => []
  | diag, left, y :: ys, up :: ups =>
      let cost := if c = y then 0 else 1
      let cur := Nat.min (up + 1) (Nat.min (left + 1) (diag + cost))
      cur :: levRowGo c up cur ys ups

def levRowStep (s2 : List Char) (prev : List Nat) (c : Char) : List Nat :=
  match prev with
  | [] => []
  | p0 :: ups => (p0 + 1) :: levRowGo c p0 (p0 + 1) s2 ups

/- The Levenshtein distance computed by the matrix loop of
`WakeWordService.calculateSimilarity`. -/
def levenshtein (s1 s2 : List Char) : Nat :=
  (s1.foldl (levRowStep s2) (List.range (s2.length + 1))).getLastD 0

/- `WakeWordService.calculateSimilarity`, returning
`1 - distance / maxLength`.  The value is written as the single fraction
`(maxLength - distance) / maxLength` via `Rat.divInt` so that it evaluates
inside the kernel (the rational `-` and `/` of the library are irreducible);
the lemma `calculateSimilarity_eq` below certifies that it equals the formula
of the source. -/
def calculateSimilarity (s1 s2 : List Char) : ℚ :=
  if s1 = s2 then 1
  else if s1.length = 0 ∨ s2.length = 0 then 0
  else
    let distance := levenshtein s1 s2
    let maxLength := Nat.max s1.length s2.length
    Rat.divInt ((maxLength : ℤ) - (distance : ℤ)) (maxLength : ℤ)

/- `text.split(' ').slice(0, word.split(' ').length).join(' ')`. -/
def firstWordsOf (text : List Char) (word : String) : List Char :=
  Js.joinChar ' ' ((Js.splitChar ' ' text).take (Js.splitChar ' ' word.toList).length)

/- The loop body of `WakeWordService.detectInterruptWord`. -/
def detectInterruptGo (sensitivity : ℚ) (now : ℤ) (text : List Char) :
    List String → Option Detection
  | [] => none
  | word :: rest =>
      let wordLower := Js.lowerL word.toList
      if Js.containsL wordLower text then some ⟨.interrupt, word, 1, now⟩
      else
        let sim := calculateSimilarity (firstWordsOf text word) wordLower
        if sensitivity ≤ sim then some ⟨.interrupt, word, sim, now⟩
        else detectInterruptGo sensitivity now text rest

def detectInterruptWord (cfg : Config) (now : ℤ) (text : List Char) :
    Option Detection :=
  detectInterruptGo cfg.sensitivity now text cfg.interruptWords

/- The loop body of `WakeWordService.detectWakeWord`. -/
def detectWakeGo (sensitivity : ℚ) (now : ℤ) (text : List Char) :
    List String → Option Detection
  | [] => none
  | word :: rest =>
      let wordLower := Js.lowerL word.toList
      if Js.headMatch wordLower text then some ⟨.wake, word, 1, now⟩
      else
        let sim := calculateSimilarity ((Js.splitChar ' ' text).headD []) wordLower
        if sensitivity ≤ sim then some ⟨.wake, word, sim, now⟩
        else detectWakeGo sensitivity now text rest

def detectWakeWord (cfg : Config) (now : ℤ) (text : List Char) : Option Detection :=
  detectWakeGo cfg.sensitivity now text cfg.wakeWords

/- The mutable part of a `WakeWordService` instance. -/
structure ServiceState where
  lastDetection : Option ℤ
  isEnabled : Bool

/- `WakeWordService.checkTranscript`; `now` stands for `Date.now()` and the
returned state carries the updated `lastDetection` timestamp. -/
def checkTranscript (cfg : Config) (st : ServiceState) (now : ℤ) (text : String) :
    Option Detection × ServiceState :=
  if !st.isEnabled then (none, st)
  else
    let normalizedText := Js.trimL (Js.lowerL text.toList)
    let debounced :=
      match st.lastDetection with
      | some t => decide (now - t < cfg.debounceMs)
      | none => false
    if debounced then (none, st)
    else
      match detectInterruptWord cfg now normalizedText with
      | some d => (some d, { st with lastDetection := some now })
      | none =>
          match detectWakeWord cfg now normalizedText with
          | some d => (some d, { st with lastDetection := some now })
          | none => (none, st)

/- The configuration the Pipeline passes to `new WakeWordService` in
`Pipeline.initializeServices`. -/
def pipelineConfig : Config :=
  ⟨["jarvis", "hey jarvis", "ok jarvis"],
   ["stop", "cancel", "wait", "hold on", "pause", "never mind"],
   mkRat 7 10, 1000⟩

end WakeWord

/- Component: VerificationEngine (src/services/verification/engine, file
src/unnamed/part_004). -/
namespace Verification

/- A JavaScript number as produced by the similarity computation: either a
finite (exact rational) value or positive Infinity, which JavaScript yields
when the weighted intersection is positive and the union size is zero. -/
inductive JNum
  | fin (q : ℚ)
  | inf
deriving DecidableEq

/- JavaScript `<=` restricted to the values above. -/
def JNum.leB : JNum → JNum → Bool
  | .fin a, .fin b => decide (a ≤ b)
  | .fin _, .inf => true
  | .inf, .fin _ => false
  | .inf, .inf => true

/- JavaScript `<` restricted to the values above. -/
def JNum.ltB : JNum → JNum → Bool
  | .fin a, .fin b => decide (a < b)
  | .fin _, .inf => true
  | .inf, _ => false

inductive ClaimType
  | factual
  | numerical
  | temporal
  | reference
  | opinion
deriving DecidableEq

/- `VerificationClaim`. -/
structure VClaim where
  text : List Char
  type : ClaimType
  confidence : JNum
  source : Option String
  verified : Bool
deriving DecidableEq

structure Citation where
  source : String
  verified : Bool
  snippet : List Char
  type : ClaimType
deriving DecidableEq

/- A JSON-like value as stored in the context snapshot; numbers are modelled
as integers, which render in JavaScript string interpolation exactly as
`toString` below. -/
inductive JsValue
  | str (s : String)
  | num (n : ℤ)
  | boolean (b : Bool)
  | arr (elems : List JsValue)
  | obj (fields : List (String × JsValue))
  | nul

/- `VerificationContext`; an absent optional field and an empty collection
produce the same flattened context, so both are modelled by `[]`. -/
structure VerificationContext where
  apiData : List (String × JsValue)
  githubData : List JsValue
  conversationHistory : List (String × String)
  knowledgeBase : List String

def emptyContext : VerificationContext := ⟨[], [], [], []⟩

/- The opinion patterns of `classifyClaimType`: the `^`-anchored alternatives
become head matches, the rest become substring matches. -/
def opinionHit (lowerText : List Char) : Bool :=
  Js.startsWithAny lowerText
    ["i think", "i believe", "in my opinion", "probably", "maybe", "perhaps"] ||
  Js.containsAny lowerText ["should", "might", "could be", "seems like", "appears to"]

def headIs (p : Char → Bool) : List Char → Bool
  | [] => false
  | c :: _ => p c

/- After digits, `\s*` then one of the large-number keywords. -/
def unitWordAfter (rest : List Char) : Bool :=
  Js.startsWithAny (rest.dropWhile Js.isSpaceChar)
    ["percent", "million", "billion", "thousand"]

/- The test `/\d+%|\d+\s*(percent|million|billion|thousand)|\$\d+/i` of
`classifyClaimType`: a match exists iff some digit is immediately followed by
`%`, or by optional whitespace and a keyword, or some `$` is immediately
followed by a digit. -/
def numericalHit : List Char → Bool
  | [] => false
  | c :: rest =>
      (c.isDigit && (headIs (· = '%') rest || unitWordAfter rest)) ||
      (c = '$' && headIs Char.isDigit rest) ||
      numericalHit rest

/- `\d{4}`: four consecutive digits somewhere in the text. -/
def fourDigitsHit : List Char → Bool
  | [] => false
  | a :: rest =>
      (match rest with
       | b :: c :: d :: _ => a.isDigit && b.isDigit && c.isDigit && d.isDigit
       | _ => false) ||
      fourDigitsHit rest

/- `\s+\w+` right after a matched phrase: at least one whitespace character,
then optional further whitespace, then a word character. -/
def spaceThenWord : List Char → Bool
  | [] => false
  | c :: rest => Js.isSpaceChar c && headIs Js.isWordChar (rest.dropWhile Js.isSpaceChar)

/- An occurrence of `phrase` directly followed by `\s+\w+`. -/
def phraseThenSpaceWord (phrase : List Char) : List Char → Bool
  | [] => false
  | c :: rest =>
      (Js.headMatch phrase (c :: rest) && spaceThenWord ((c :: rest).drop phrase.length)) ||
      phraseThenSpaceWord phrase rest

/- The test `/\d{4}|yesterday|today|tomorrow|last\s+\w+|next\s+\w+|ago|since/i`
of `classifyClaimType`. -/
def temporalHit (cs : List Char) : Bool :=
  fourDigitsHit cs ||
  Js.containsAny cs ["yesterday", "today", "tomorrow"] ||
  phraseThenSpaceWord "last".toList cs ||
  phraseThenSpaceWord "next".toList cs ||
  Js.containsAny cs ["ago", "since"]

/- The test `/according to|based on|as stated in|from\s+\w+/i` of
`classifyClaimType`. -/
def referenceHit (cs : List Char) : Bool :=
  Js.containsAny cs ["according to", "based on", "as stated in"] ||
  phraseThenSpaceWord "from".toList cs

/- `VerificationEngine.classifyClaimType`.  The source tests the numerical,
temporal and reference patterns on the original text with the `i` flag, which
for these ASCII patterns is equivalent to testing the lower-cased text. -/
def classifyClaimType (text : List Char) : ClaimType :=
  let lowerText := Js.lowerL text
  if opinionHit lowerText then .opinion
  else if numericalHit lowerText then .numerical
  else if temporalHit lowerText then .temporal
  else if referenceHit lowerText then .reference
  else .factual

def isTermChar (c : Char) : Bool := c = '.' || c = '!' || c = '?'

/- `VerificationEngine.extractClaims`: split on `[.!?]+`, trim, keep sentences
longer than 10 characters, drop opinions, and seed the remaining claims with
confidence 0, no source and `verified = false`. -/
def extractClaims (text : String) : List VClaim :=
  let sentences :=
    ((Js.splitRuns isTermChar text.toList).map Js.trimL).filter fun s => 10 < s.length
  sentences.filterMap fun s =>
    let claimType := classifyClaimType s
    if claimType = .opinion then none
    else some ⟨s, claimType, .fin 0, none, false⟩

/- Insertion-order deduplication, the observable content of a JavaScript
`Set` built by insertion. -/
def dedupGo (seen : List (List Char)) : List (List Char) → List (List Char)
  | [] => []
  | w :: ws => if seen.contains w then dedupGo seen ws else w :: dedupGo (w :: seen) ws

/- `VerificationEngine.tokenize`: lower-case, strip every character outside
`[\w\s]`, split on whitespace runs, keep tokens longer than 2 characters,
collect into a `Set`. -/
def tokenize (text : List Char) : List (List Char) :=
  dedupGo []
    ((Js.splitRuns Js.isSpaceChar
        ((Js.lowerL text).filter fun c => Js.isWordChar c || Js.isSpaceChar c)).filter
      fun w => 2 < w.length)

def keyTerms : List (List Char) :=
  ["error", "issue", "bug", "version", "update", "status", "count", "total",
    "name", "id"].map String.toList

def termWeight (w : List Char) : ℕ := if keyTerms.contains w then 2 else 1

/- The loop of `VerificationEngine.calculateSimilarity`: sum the weights of
the claim words that also occur among the context words. -/
def intersectionWeight (claimWords contextWords : List (List Char)) : ℕ :=
  (claimWords.filter fun w => contextWords.contains w).foldl
    (fun acc w => acc + termWeight w) 0

/- `VerificationEngine.calculateSimilarity`: the weighted-Jaccard score
`intersection / (|Q| + |C| - intersection)`.  When the denominator is zero the
numerator is positive (both sets are non-empty in that branch), so JavaScript
produces `Infinity`, modelled by `JNum.inf`; the finite case is written with
`Rat.divInt` so that it evaluates inside the kernel. -/
def calculateSimilarity (claimWords : List (List Char)) (contextText : List Char) : JNum :=
  let contextWords := tokenize contextText
  if claimWords.length = 0 ∨ contextWords.length = 0 then .fin 0
  else
    let inter := intersectionWeight claimWords contextWords
    let unionSize : ℤ := (claimWords.length : ℤ) + (contextWords.length : ℤ) - (inter : ℤ)
    if unionSize = 0 then .inf else .fin (Rat.divInt (inter : ℤ) unionSize)

structure ClaimMatch where
  claim : List Char
  source : String
  snippet : List Char
  similarity : JNum

/- `VerificationEngine.flattenObject`. -/
mutual

def flattenObject : JsValue → String → List String
  | .str s, _ => [s]
  | .num n, pre => [pre ++ ": " ++ toString n]
  | .boolean b, pre => [pre ++ ": " ++ (if b then "true" else "false")]
  | .arr elems, pre => flattenArr elems pre
  | .obj fields, pre => flattenFields fields pre
  | .nul, _ => []

def flattenArr : List JsValue → String → List String
  | [], _ => []
  | v :: vs, pre => flattenObject v pre ++ flattenArr vs pre

def flattenFields : List (String × JsValue) → String → List String
  | [], _ => []
  | f :: fs, pre => flattenObject f.2 (pre ++ "." ++ f.1) ++ flattenFields fs pre

end

/- `VerificationEngine.flattenContext`: api data, GitHub data, conversation
history, then knowledge base, in source order. -/
def flattenContext (ctx : VerificationContext) : List ClaimMatch :=
  (ctx.apiData.flatMap fun kv =>
    (flattenObject kv.2 kv.1).map fun t => ⟨[], "api:" ++ kv.1, t.toList, .fin 0⟩) ++
  (ctx.githubData.flatMap fun item =>
    (flattenObject item "github").map fun t => ⟨[], "github", t.toList, .fin 0⟩) ++
  (ctx.conversationHistory.map fun m => ⟨[], "conversation:" ++ m.1, m.2.toList, .fin 0⟩) ++
  (ctx.knowledgeBase.map fun k => ⟨[], "knowledge_base", k.toList, .fin 0⟩)

/- The loop of `VerificationEngine.findBestMatch`; the best similarity starts
at 0 and a context entry replaces the best match only when its similarity is
strictly greater. -/
def findBestGo (claimText : List Char) (claimWords : List (List Char)) :
    Option ClaimMatch → JNum → List ClaimMatch → Option ClaimMatch
  | best, _, [] => best
  | best, bestSim, ctx :: rest =>
      let sim := calculateSimilarity claimWords ctx.snippet
      if bestSim.ltB sim then
        findBestGo claimText claimWords
          (some ⟨claimText, ctx.source, ctx.snippet.take 200, sim⟩) sim rest
      else findBestGo claimText claimWords best bestSim rest

def findBestMatch (claimText : List Char) (contextTexts : List ClaimMatch) :
    Option ClaimMatch :=
  findBestGo claimText (tokenize claimText) none (.fin 0) contextTexts

/- The class of characters matched by the JavaScript `.` (no `s` flag). -/
def jsDotChar (c : Char) : Bool :=
  !(c = '\n' || c = '\r' || c = '\u2028' || c = '\u2029')

/- A position where one of the two suffix alternatives starts after a run of
`.`-matchable characters. -/
def scanDotThen (v1 v2 : List Char) : List Char → Bool
  | [] => false
  | c :: rest =>
      Js.headMatch v1 (c :: rest) || Js.headMatch v2 (c :: rest) ||
      (jsDotChar c && scanDotThen v1 v2 rest)

/- The test `/i don't have.*in my (current )?data/` of `isGeneralKnowledge`. -/
def dontHaveDataHit : List Char → Bool
  | [] => false
  | c :: rest =>
      (Js.headMatch "i don\x27t have".toList (c :: rest) &&
        scanDotThen "in my data".toList "in my current data".toList
          ((c :: rest).drop "i don\x27t have".toList.length)) ||
      dontHaveDataHit rest

/- `VerificationEngine.isGeneralKnowledge`.  Each JavaScript regular
expression of the source is expanded into the set of literal alternatives it
can match: optional groups expand to explicit variants, `(a|b)` to both
branches, and `/could you (please )?/` reduces to the substring
`"could you "` because the optional group constrains nothing. -/
def isGeneralKnowledge (text : List Char) : Bool :=
  let lowerText := Js.lowerL text
  Js.startsWithAny lowerText ["hello", "hi", "hey"] ||
  Js.containsAny lowerText
    ["how can i help", "how can i assist", "i can help you with", "let me know if",
      "feel free to", "i\x27m here to", "you\x27re welcome", "thank you",
      "is there anything", "what would you like", "what can i do"] ||
  Js.containsAny lowerText
    ["i don\x27t have information", "i don\x27t have data", "i don\x27t have access",
      "i don\x27t have that information", "i don\x27t have that data",
      "i don\x27t have that access", "i don\x27t have this information",
      "i don\x27t have this data", "i don\x27t have this access"] ||
  Js.containsAny lowerText ["i cannot verify", "i\x27m not sure", "i would need to check"] ||
  dontHaveDataHit lowerText ||
  Js.containsAny lowerText
    ["i cannot confirm", "i\x27m unable to", "i can\x27t find", "no information available",
      "not in context", "not in my context", "not in the context"] ||
  Js.containsAny lowerText
    ["i\x27m jarvis", "i am jarvis", "i\x27m a voice assistant", "i am a voice assistant",
      "i\x27m here to help", "i am here to help", "i\x27m designed to", "i am designed to",
      "my purpose is"] ||
  Js.containsAny lowerText
    ["could you ", "would you like", "do you want", "can you tell me",
      "what do you", "what would you"] ||
  Js.endsWithL "?".toList lowerText

/- The general-knowledge fallback branch of `VerificationEngine.verifyClaims`:
verified with confidence 0.7 and source `general_knowledge` when the claim
matches a safe pattern, otherwise unverified with confidence 0.2. -/
def generalKnowledgeScore (claim : VClaim) : VClaim :=
  let gk := isGeneralKnowledge claim.text
  { claim with
    verified := gk
    confidence := if gk then .fin (mkRat 7 10) else .fin (mkRat 1 5)
    source := if gk then some "general_knowledge" else none }

/- `VerificationEngine.verifyClaims`: a claim whose best context match scores
at least 0.5 is verified with that similarity as its confidence; otherwise the
general-knowledge fallback applies. -/
def verifyClaims (claims : List VClaim) (ctx : VerificationContext) : List VClaim :=
  let contextTexts := flattenContext ctx
  claims.map fun claim =>
    match findBestMatch claim.text contextTexts with
    | some m =>
        if JNum.leB (.fin (mkRat 1 2)) m.similarity then
          { claim with verified := true, confidence := m.similarity, source := some m.source }
        else generalKnowledgeScore claim
    | none => generalKnowledgeScore claim

/- The loop of `VerificationEngine.generateCitations`; the `claim.source &&`
test is JavaScript truthiness, which also rejects an empty source label. -/
def generateCitationsGo (seenSources : List String) : List VClaim → List Citation
  | [] => []
  | claim :: rest =>
      match claim.source with
      | some src =>
          if src != "" && claim.verified && !seenSources.contains src then
            ⟨src, true, claim.text.take 100, claim.type⟩ ::
              generateCitationsGo (src :: seenSources) rest
          else generateCitationsGo seenSources rest
      | none => generateCitationsGo seenSources rest

def generateCitations (claims : List VClaim) : List Citation :=
  generateCitationsGo [] claims

/- The fixed disclaimer sentence of `VerificationEngine.modifyResponse`. -/
def disclaimer : String :=
  "\n\nNote: Some information in this response could not be verified against available data sources. Please verify critical information independently."

/- `VerificationEngine.modifyResponse`. -/
def modifyResponse (response : String) (claims : List VClaim) : String :=
  if (claims.filter fun c => !c.verified).length = 0 then response
  else response ++ disclaimer

def warningFor (claim : VClaim) : String :=
  "Unverified claim: \"" ++ (claim.text.take 50).asString ++ "...\""

structure EngineResult where
  verified : Bool
  confidence : ℚ
  claims : List VClaim
  citations : List Citation
  warnings : List String
  modifiedResponse : Option String
deriving DecidableEq

/- The default `minConfidenceThreshold` of the `VerificationEngine`
constructor (0.6). -/
def defaultThreshold : ℚ := mkRat 3 5

/- `VerificationEngine.verify`, the rule-based pass (the configuration used by
the Pipeline sets `useLLMVerification: false`).  `threshold` is the
`minConfidenceThreshold` field.  The overall confidence
`verifiedCount / verifiedClaims.length` is written with `mkRat` so that it
evaluates inside the kernel; `verify_confidence_div` below certifies the
quotient form. -/
def verify (threshold : ℚ) (responseText : String) (ctx : VerificationContext) :
    EngineResult :=
  let claims := extractClaims responseText
  if claims.length = 0 then ⟨true, 1, [], [], [], none⟩
  else
    let verifiedClaims := verifyClaims claims ctx
    let verifiedCount := (verifiedClaims.filter fun c => c.verified).length
    let overallConfidence : ℚ :=
      if 0 < verifiedClaims.length then mkRat (verifiedCount : ℤ) verifiedClaims.length
      else 1
    let citations := generateCitations verifiedClaims
    let verified := decide (threshold ≤ overallConfidence)
    let warnings := (verifiedClaims.filter fun c => !c.verified).map warningFor
    let modifiedResponse :=
      if verified then none else some (modifyResponse responseText verifiedClaims)
    ⟨verified, overallConfidence, verifiedClaims, citations, warnings, modifiedResponse⟩

structure ClientResult where
  verified : Bool
  confidence : ℚ
  citations : List Citation
  warnings : List String
  modifiedResponse : Option String
deriving DecidableEq

/- `VerificationClient.verify` in the configuration the Pipeline constructs
(enabled, API key present so the built-in engine exists, rule-based): the call
reaches `verifyWithBuiltInEngine`, which passes the engine result through
field by field. -/
def clientVerify (threshold : ℚ) (responseText : String)
    (ctx : VerificationContext) : ClientResult :=
  let r := verify threshold responseText ctx
  ⟨r.verified, r.confidence, r.citations, r.warnings, r.modifiedResponse⟩

/- The verification-and-append step of `Pipeline.processWithLLM`: from the
accumulated `fullResponse` and the outcome of the awaited verification call
(`Except.error` standing for a thrown error, which the `catch` at the end of
the `try` block swallows), the content of the assistant message pushed onto
the conversation history.  The inner `if (verificationResult.modifiedResponse)`
is JavaScript truthiness, so `null` and the empty string both leave
`verifiedResponse = fullResponse`. -/
def appendedAssistantContent (fullResponse : String)
    (outcome : Except Unit ClientResult) : String :=
  match outcome with
  | .error _ => fullResponse
  | .ok r =>
      if r.verified then fullResponse
      else
        match r.modifiedResponse with
        | some m => if m.length = 0 then fullResponse else m
        | none => fullResponse

/- A context snapshot holding one knowledge-base entry; used by concrete
evaluations. -/
def knowledgeCtx : VerificationContext := ⟨[], [], [], ["error bug apple"]⟩

/- The claim produced by verifying "error bug apple" against `knowledgeCtx`:
all three tokens match, two of them are key terms, so the weighted
intersection is 5 while the union size is 3 + 3 - 5 = 1, giving similarity 5.
-/
def sampleClaimHighSim : VClaim :=
  ⟨"error bug apple".toList, .factual, .fin 5, some "knowledge_base", true⟩

end Verification

/- Component: SessionManager and Pipeline (src/orchestrator; the complete
implementations appear in src/src/orchestrator/pipeline.integration.test.ts,
SessionManager at lines 454-548 and the current Pipeline at lines 550-1328). -/
namespace Orchestrator

inductive SessionState
  | idle
  | listening
  | processing
  | speaking
  | interrupted
deriving DecidableEq

structure Session where
  id : String
  conversationId : String
  state : SessionState
  startedAt : ℤ
  lastActivityAt : ℤ
deriving DecidableEq

structure Message where
  id : String
  role : String
  content : String
  timestamp : ℤ
deriving DecidableEq

structure Conversation where
  id : String
  userId : String
  messages : List Message
  createdAt : ℤ
  updatedAt : ℤ
deriving DecidableEq

/- Association lists model the JavaScript `Map`s.  Keys are unique in every
reachable state; the operations below agree with `Map.get` / `Map.set` /
`Map.delete` under that discipline. -/
def assocFind {α : Type} : List (String × α) → String → Option α
  | [], _ => none
  | e :: rest, key => if e.1 = key then some e.2 else assocFind rest key

def assocUpdate {α : Type} (f : α → α) : List (String × α) → String → List (String × α)
  | [], _ => []
  | e :: rest, key => if e.1 = key then (e.1, f e.2) :: rest else e :: assocUpdate f rest key

def assocRemove {α : Type} : List (String × α) → String → List (String × α)
  | [], _ => []
  | e :: rest, key => if e.1 = key then assocRemove rest key else e :: assocRemove rest key

def assocSet {α : Type} : List (String × α) → String → α → List (String × α)
  | [], key, v => [(key, v)]
  | e :: rest, key, v => if e.1 = key then (key, v) :: rest else e :: assocSet rest key v

/- The two stores of `SessionManager`. -/
structure SMState where
  sessions : List (String × Session)
  conversations : List (String × Conversation)
deriving DecidableEq

/- `SessionManager.getSession`. -/
def getSession (sm : SMState) (sessionId : String) : Option Session :=
  assocFind sm.sessions sessionId

/- `SessionManager.getConversation`. -/
def getConversation (sm : SMState) (conversationId : String) : Option Conversation :=
  assocFind sm.conversations conversationId

/- `SessionManager.updateSessionState`: absent ids are a no-op (the method
logs and returns); otherwise the state and `lastActivityAt` are updated.
`now` stands for `new Date()`. -/
def updateSessionState (sm : SMState) (sessionId : String)
    (newState : SessionState) (now : ℤ) : SMState :=
  match getSession sm sessionId with
  | none => sm
  | some _ =>
      { sm with
        sessions :=
          assocUpdate (fun s => { s with state := newState, lastActivityAt := now })
            sm.sessions sessionId }

/- `SessionManager.interrupt`: transitions to `interrupted` and returns true
only when the session exists and is `processing` or `speaking`. -/
def interrupt (sm : SMState) (sessionId : String) (now : ℤ) : Bool × SMState :=
  match getSession sm sessionId with
  | none => (false, sm)
  | some s =>
      if s.state = .processing ∨ s.state = .speaking then
        (true, updateSessionState sm sessionId .interrupted now)
      else (false, sm)

/- `SessionManager.endSession`: deletes the session entry when present,
leaving conversations untouched. -/
def endSession (sm : SMState) (sessionId : String) : SMState :=
  match getSession sm sessionId with
  | none => sm
  | some _ => { sm with sessions := assocRemove sm.sessions sessionId }

/- The pipeline event kinds exercised by the claims. -/
inductive EventType
  | audioChunk
  | audioEnd
  | transcriptPartial
  | transcriptFinal
  | llmStart
  | llmChunk
  | llmEnd
  | ttsStart
  | ttsChunk
  | ttsEnd
  | ttsStop
  | sessionInterrupt
  | errorEvent
deriving DecidableEq

/- The Pipeline fields relevant to the claims: the session manager, the
per-session `activeResponseIds` map, and the per-session `audioBuffers` map
(a buffered chunk is its list of bytes). -/
structure PipeState where
  sm : SMState
  activeResponseIds : List (String × String)
  audioBuffers : List (String × List (List ℕ))
deriving DecidableEq

/- `Pipeline.isSessionInterrupted`: true when the session is missing or its
state is `interrupted`. -/
def isSessionInterrupted (sm : SMState) (sessionId : String) : Bool :=
  match getSession sm sessionId with
  | none => true
  | some s => s.state == .interrupted

/- `Pipeline.interrupt`: remembers whether the session was `speaking`,
delegates to `SessionManager.interrupt`, and on success emits `tts.stop`
first (if it was speaking) followed by `session.interrupt`; on failure it
emits nothing.  The `activeResponseIds` map is not touched by this method. -/
def pipelineInterrupt (st : PipeState) (sessionId : String) (now : ℤ) :
    PipeState × List EventType :=
  let wasPlaying : Bool :=
    match getSession st.sm sessionId with
    | some s => s.state == .speaking
    | none => false
  let r := interrupt st.sm sessionId now
  if r.1 then
    ({ st with sm := r.2 },
      (if wasPlaying then [.ttsStop] else []) ++ [.sessionInterrupt])
  else (st, [])

/- The pre-emit guard of `Pipeline.streamSentenceToTTS` and of its synthesis
callback: audio carrying `responseId` is emitted only if the session is
neither missing nor interrupted and `responseId` still equals the session's
entry in `activeResponseIds`. -/
def ttsSentenceEmits (st : PipeState) (sessionId responseId : String) : Bool :=
  !isSessionInterrupted st.sm sessionId &&
    assocFind st.activeResponseIds sessionId == some responseId

/- The response-id minting step at the top of `Pipeline.processWithLLM`
(`this.activeResponseIds.set(sessionId, responseId)` with a fresh uuid). -/
def mintResponseId (st : PipeState) (sessionId responseId : String) : PipeState :=
  { st with activeResponseIds := assocSet st.activeResponseIds sessionId responseId }

/- The synchronous prefix of `Pipeline.processAudioEnd` up to the hand-off to
transcription: take and clear the per-session buffer; with no session or no
buffered chunk, return unchanged; discard a concatenated utterance of fewer
than 16000 bytes, returning the session to `idle` with no event; otherwise
transition to `processing` and emit `audio.end`.  The boolean reports whether
control proceeds to the transcription step. -/
def processAudioEndGate (st : PipeState) (sessionId : String) (now : ℤ) :
    PipeState × List EventType × Bool :=
  match getSession st.sm sessionId with
  | none => (st, [], false)
  | some _ =>
      let audioChunks := (assocFind st.audioBuffers sessionId).getD []
      if audioChunks.length = 0 then (st, [], false)
      else
        let audioData := audioChunks.flatten
        let st1 := { st with audioBuffers := assocRemove st.audioBuffers sessionId }
        if audioData.length < 16000 then
          ({ st1 with sm := updateSessionState st1.sm sessionId .idle now }, [], false)
        else
          ({ st1 with sm := updateSessionState st1.sm sessionId .processing now },
            [.audioEnd], true)

/- Concrete states used by counterexamples and witnesses. -/

def sessionProcessing : Session := ⟨"s1", "c1", .processing, 0, 0⟩

def pipeProcessing : PipeState :=
  ⟨⟨[("s1", sessionProcessing)], []⟩, [("s1", "r1")], []⟩

def sessionListening : Session := ⟨"s1", "c1", .listening, 0, 0⟩

def pipeShortBuffer : PipeState :=
  ⟨⟨[("s1", sessionListening)], []⟩, [], [("s1", [[0]])]⟩

def smEmpty : SMState := ⟨[], []⟩

end Orchestrator

end Jarvis

/- ------------------------------------------------------------------ -/
/- Supporting lemmas.                                                  -/
/- ------------------------------------------------------------------ -/

namespace Jarvis.WakeWord

/- The similarity value of the source, `1 - distance / maxLength`, agrees
with the kernel-computable fraction used in the definition. -/
theorem calculateSimilarity_eq (s1 s2 : List Char) (h1 : s1 ≠ s2)
    (h2 : ¬(s1.length = 0 ∨ s2.length = 0)) :
    calculateSimilarity s1 s2 =
      1 - (levenshtein s1 s2 : ℚ) / (Nat.max s1.length s2.length : ℚ) := by
  have hpos : 0 < Nat.max s1.length s2.length := by
    rcases not_or.mp h2 with ⟨ha, _⟩
    exact lt_of_lt_of_le (Nat.pos_of_ne_zero ha) (Nat.le_max_left _ _)
  have hq : (Nat.max s1.length s2.length : ℚ) ≠ 0 := by
    exact_mod_cast hpos.ne'
  unfold calculateSimilarity
  rw [if_neg h1, if_neg h2, Rat.divInt_eq_div]
  rw [Int.cast_sub, Int.cast_natCast, Int.cast_natCast]
  rw [sub_div, div_self hq]

/- Every detection produced by the interrupt-word loop has type `interrupt`.
-/
theorem detectInterruptGo_type (sens : ℚ) (now : ℤ) (text : List Char) :
    ∀ (words : List String) (d : Detection),
      detectInterruptGo sens now text words = some d → d.type = .interrupt := by
  intro words
  induction words with
  | nil => intro d h; simp [detectInterruptGo] at h
  | cons w ws ih =>
      intro d h
      simp only [detectInterruptGo] at h
      split at h
      · cases Option.some.inj h; rfl
      · split at h
        · cases Option.some.inj h; rfl
        · exact ih d h

/- If some configured phrase occurs as a substring, the interrupt-word loop
returns a detection. -/
theorem detectInterruptGo_isSome (sens : ℚ) (now : ℤ) (text : List Char) :
    ∀ words : List String,
      (∃ w ∈ words, Js.containsL (Js.lowerL w.toList) text = true) →
      ∃ d, detectInterruptGo sens now text words = some d := by
  intro words
  induction words with
  | nil => rintro ⟨w, hw, _⟩; simp at hw
  | cons w ws ih =>
      rintro ⟨w0, hw0, hc⟩
      simp only [detectInterruptGo]
      split
      · exact ⟨_, rfl⟩
      · split
        · exact ⟨_, rfl⟩
        · rename_i hcon _
          rcases List.mem_cons.mp hw0 with rfl | hmem
          · exact absurd hc (by simpa using hcon)
          · exact ih ⟨w0, hmem, hc⟩

end Jarvis.WakeWord

namespace Jarvis.Orchestrator

theorem assocFind_assocUpdate {α : Type} (f : α → α) (l : List (String × α))
    (k : String) :
    assocFind (assocUpdate f l k) k = (assocFind l k).map f := by
  induction l with
  | nil => rfl
  | cons e rest ih =>
      by_cases h : e.1 = k <;> simp [assocUpdate, assocFind, h, ih]

theorem assocFind_assocRemove {α : Type} (l : List (String × α)) (k : String) :
    assocFind (assocRemove l k) k = none := by
  induction l with
  | nil => rfl
  | cons e rest ih =>
      by_cases h : e.1 = k <;> simp [assocRemove, assocFind, h, ih]

/- `updateSessionState` on a present session rewrites exactly its state and
activity timestamp. -/
theorem getSession_updateSessionState (sm : SMState) (sid : String)
    (ns : SessionState) (now : ℤ) (s : Session) (hs : getSession sm sid = some s) :
    getSession (updateSessionState sm sid ns now) sid =
      some { s with state := ns, lastActivityAt := now } := by
  unfold updateSessionState
  rw [hs]
  unfold getSession at hs ⊢
  simp [assocFind_assocUpdate, hs]

end Jarvis.Orchestrator

namespace Jarvis.Verification

theorem length_filter_add_not {α : Type} (p : α → Bool) (l : List α) :
    (l.filter p).length + (l.filter fun a => !p a).length = l.length := by
  induction l with
  | nil => rfl
  | cons a rest ih =>
      cases hp : p a <;> simp [List.filter_cons, hp] <;> omega

theorem verifyClaims_length (claims : List VClaim) (ctx : VerificationContext) :
    (verifyClaims claims ctx).length = claims.length := by
  simp [verifyClaims]

/- Every claim scored by `verifyClaims` carries confidence 0.2, 0.7, or a
similarity that passed the `>= 0.5` gate. -/
theorem verifyClaims_confidence_shape (claims : List VClaim)
    (ctx : VerificationContext) (c : VClaim) (hc : c ∈ verifyClaims claims ctx) :
    c.confidence = .fin (mkRat 1 5) ∨ c.confidence = .fin (mkRat 7 10) ∨
      JNum.leB (.fin (mkRat 1 2)) c.confidence = true := by
  unfold verifyClaims at hc
  rcases List.mem_map.mp hc with ⟨a, _, rfl⟩
  cases hm : findBestMatch a.text (flattenContext ctx) with
  | none =>
      simp only [hm, generalKnowledgeScore]
      cases hg : isGeneralKnowledge a.text <;> simp [hg]
  | some m =>
      simp only [hm]
      split
      · rename_i hle
        exact Or.inr (Or.inr hle)
      · simp only [generalKnowledgeScore]
        cases hg : isGeneralKnowledge a.text <;> simp [hg]

/- The quotient form of the overall confidence computed by `verify`. -/
theorem verify_confidence_div (τ : ℚ) (resp : String) (ctx : VerificationContext)
    (h : extractClaims resp ≠ []) :
    (verify τ resp ctx).confidence =
      (((verify τ resp ctx).claims.filter fun c => c.verified).length : ℚ) /
        (((verify τ resp ctx).claims.length : ℕ) : ℚ) := by
  have hlen : ¬(extractClaims resp).length = 0 := by
    simpa [List.length_eq_zero] using h
  have hvl : 0 < (verifyClaims (extractClaims resp) ctx).length := by
    rw [verifyClaims_length]
    exact Nat.pos_of_ne_zero hlen
  simp only [verify, hlen, if_neg, ite_false, hvl, if_pos, ite_true]
  rw [Rat.mkRat_eq_divInt, Rat.divInt_eq_div]
  push_cast
  rfl

end Jarvis.Verification

namespace Jarvis.Verification

/- `modifyResponse` returns the response itself or the response with the
disclaimer appended, and nothing else. -/
theorem modifyResponse_cases (resp : String) (claims : List VClaim) :
    modifyResponse resp claims = resp ∨
      modifyResponse resp claims = resp ++ disclaimer := by
  unfold modifyResponse
  split
  · exact Or.inl rfl
  · exact Or.inr rfl

/- The modified response of `verify` is absent, the response itself, or the
response with the disclaimer appended. -/
theorem verify_modified_cases (τ : ℚ) (resp : String) (ctx : VerificationContext) :
    (verify τ resp ctx).modifiedResponse = none ∨
    (verify τ resp ctx).modifiedResponse = some resp ∨
    (verify τ resp ctx).modifiedResponse = some (resp ++ disclaimer) := by
  by_cases h : (extractClaims resp).length = 0
  · simp [verify, h]
  · have hvl : 0 < (verifyClaims (extractClaims resp) ctx).length := by
      rw [verifyClaims_length]
      exact Nat.pos_of_ne_zero h
    simp only [verify, h, ite_false, if_neg, hvl, if_pos, ite_true]
    by_cases hdec :
        τ ≤ mkRat
          (((verifyClaims (extractClaims resp) ctx).filter fun c => c.verified).length : ℤ)
          (verifyClaims (extractClaims resp) ctx).length
    · left
      simp [hdec]
    · rcases modifyResponse_cases resp (verifyClaims (extractClaims resp) ctx) with hm | hm
      · right; left
        simp [hdec, hm]
      · right; right
        simp [hdec, hm]

/- When the verdict is negative (with any threshold at most 1), some claim is
unverified, so the modified response carries the disclaimer. -/
theorem verify_modified_of_unverified (τ : ℚ) (resp : String)
    (ctx : VerificationContext) (hτ : τ ≤ 1)
    (hv : (verify τ resp ctx).verified = false) :
    (verify τ resp ctx).modifiedResponse = some (resp ++ disclaimer) := by
  by_cases h : (extractClaims resp).length = 0
  · simp [verify, h] at hv
  · have hvl : 0 < (verifyClaims (extractClaims resp) ctx).length := by
      rw [verifyClaims_length]
      exact Nat.pos_of_ne_zero h
    have hv' := hv
    simp only [verify, h, ite_false, if_neg, hvl, if_pos, ite_true,
      decide_eq_false_iff_not] at hv'
    have hlt :
        mkRat ((verifyClaims (extractClaims resp) ctx).filter fun c => c.verified).length
          (verifyClaims (extractClaims resp) ctx).length < τ := lt_of_not_le hv'
    have hdiv :
        (((verifyClaims (extractClaims resp) ctx).filter fun c => c.verified).length : ℚ) /
          ((verifyClaims (extractClaims resp) ctx).length : ℚ) < 1 := by
      rw [Rat.mkRat_eq_divInt, Rat.divInt_eq_div] at hlt
      push_cast at hlt
      exact hlt.trans_le hτ
    have hnq : (0 : ℚ) < ((verifyClaims (extractClaims resp) ctx).length : ℚ) := by
      exact_mod_cast hvl
    have hcount :
        (((verifyClaims (extractClaims resp) ctx).filter fun c => c.verified).length) <
          (verifyClaims (extractClaims resp) ctx).length := by
      have := (div_lt_one hnq).mp hdiv
      exact_mod_cast this
    have hunv :
        ¬((verifyClaims (extractClaims resp) ctx).filter fun c => !c.verified).length = 0 := by
      have hsum := length_filter_add_not (fun c => c.verified)
        (verifyClaims (extractClaims resp) ctx)
      omega
    simp only [verify, h, ite_false, if_neg, hvl, if_pos, ite_true]
    simp only [hv', decide_eq_true_eq, ite_false, if_neg, not_false_iff]
    simp [modifyResponse, hunv]

end Jarvis.Verification

/- ------------------------------------------------------------------ -/
/- Claim theorems.                                                     -/
/- ------------------------------------------------------------------ -/

open Jarvis Jarvis.WakeWord Jarvis.Verification Jarvis.Orchestrator

/-- C1 counterexample: a session in state `processing` with active response id
"r1"; after `Pipeline.interrupt` returns, the session's active response id is
still "r1", not a different value as the claim states: `Pipeline.interrupt`
never touches the `activeResponseIds` map. -/
theorem claim_C1_counterexample :
    getSession pipeProcessing.sm "s1" = some sessionProcessing ∧
    sessionProcessing.state = SessionState.processing ∧
    assocFind pipeProcessing.activeResponseIds "s1" = some "r1" ∧
    assocFind (pipelineInterrupt pipeProcessing "s1" 7).1.activeResponseIds "s1" =
      some "r1" := by
  refine ⟨rfl, rfl, rfl, ?_⟩
  decide

/-- C1 (amended): for every session in state `processing` or `speaking`, after
`Pipeline.interrupt` returns the session is `interrupted` and its active
response id is unchanged; every in-flight synthesis artifact is nonetheless
dropped, because the pre-emit check of `streamSentenceToTTS` also requires the
session not to be interrupted.  The active response id changes only when a new
generation begins (`processWithLLM` minting a fresh id). -/
theorem claim_C1_theorem (st : PipeState) (sid : String) (now : ℤ) (s : Session)
    (hs : getSession st.sm sid = some s)
    (hstate : s.state = SessionState.processing ∨ s.state = SessionState.speaking) :
    (pipelineInterrupt st sid now).1.activeResponseIds = st.activeResponseIds ∧
    getSession (pipelineInterrupt st sid now).1.sm sid =
      some { s with state := .interrupted, lastActivityAt := now } ∧
    ∀ rid, ttsSentenceEmits (pipelineInterrupt st sid now).1 sid rid = false := by
  have hint : interrupt st.sm sid now =
      (true, updateSessionState st.sm sid .interrupted now) := by
    unfold interrupt
    rw [hs]
    simp [hstate]
  have hupd := getSession_updateSessionState st.sm sid .interrupted now s hs
  have hfst : (pipelineInterrupt st sid now).1 =
      { st with sm := updateSessionState st.sm sid SessionState.interrupted now } := by
    simp [pipelineInterrupt, hint]
  refine ⟨?_, ?_, ?_⟩
  · rw [hfst]
  · rw [hfst]
    exact hupd
  · intro rid
    rw [hfst]
    simp [ttsSentenceEmits, isSessionInterrupted, hupd]

/-- C1 witness: the amended statement evaluated on the concrete `processing`
session, with the pre-emit check instantiated at the old response id "r1". -/
theorem claim_C1_witness :
    (pipelineInterrupt pipeProcessing "s1" 7).1.activeResponseIds =
      pipeProcessing.activeResponseIds ∧
    getSession (pipelineInterrupt pipeProcessing "s1" 7).1.sm "s1" =
      some { sessionProcessing with state := .interrupted, lastActivityAt := 7 } ∧
    ttsSentenceEmits (pipelineInterrupt pipeProcessing "s1" 7).1 "s1" "r1" = false := by
  have h := claim_C1_theorem pipeProcessing "s1" 7 sessionProcessing rfl (Or.inl rfl)
  exact ⟨h.1, h.2.1, h.2.2 "r1"⟩

set_option maxRecDepth 4000 in
/-- C2: the assistant message appended by a turn of `processWithLLM` is
textually equal either to the full generated reply (when verification passes
or the verifier throws) or to the reply with the fixed disclaimer appended
(when verification fails, for any threshold at most 1, in particular the
default 0.6); it is never a prefix and never any other concatenation. -/
theorem claim_C2_theorem (τ : ℚ) (fullResponse : String) (ctx : VerificationContext)
    (outcome : Except Unit ClientResult)
    (hout : outcome = .ok (clientVerify τ fullResponse ctx) ∨
      outcome = .error ()) :
    (appendedAssistantContent fullResponse outcome = fullResponse ∨
      appendedAssistantContent fullResponse outcome = fullResponse ++ disclaimer) ∧
    (outcome = .error () →
      appendedAssistantContent fullResponse outcome = fullResponse) ∧
    (∀ r, outcome = .ok r → r.verified = true →
      appendedAssistantContent fullResponse outcome = fullResponse) ∧
    (τ ≤ 1 → ∀ r, outcome = .ok r → r.verified = false →
      appendedAssistantContent fullResponse outcome = fullResponse ++ disclaimer) := by
  have hlen : ¬(fullResponse ++ disclaimer).length = 0 := by
    rw [String.length_append]
    have hd : 0 < disclaimer.length := by decide
    omega
  have hmod : (clientVerify τ fullResponse ctx).modifiedResponse =
      (verify τ fullResponse ctx).modifiedResponse := rfl
  have hver : (clientVerify τ fullResponse ctx).verified =
      (verify τ fullResponse ctx).verified := rfl
  rcases hout with rfl | rfl
  · refine ⟨?_, ?_, ?_, ?_⟩
    · cases hv : (clientVerify τ fullResponse ctx).verified
      · rcases verify_modified_cases τ fullResponse ctx with hm | hm | hm
        · left
          simp [appendedAssistantContent, hv, hmod, hm]
        · left
          simp [appendedAssistantContent, hv, hmod, hm]
        · right
          simp [appendedAssistantContent, hv, hmod, hm, hlen]
          intro _ h2
          exact absurd h2 (by decide)
      · left
        simp [appendedAssistantContent, hv]
    · intro h
      simp at h
    · intro r hr hv
      cases Except.ok.inj hr
      simp [appendedAssistantContent, hv]
    · intro hτ r hr hv
      cases Except.ok.inj hr
      have hm := verify_modified_of_unverified τ fullResponse ctx hτ (by rw [← hver]; exact hv)
      simp [appendedAssistantContent, hv, hmod, hm, hlen]
      intro _ h2
      exact absurd h2 (by decide)
  · refine ⟨Or.inl rfl, fun _ => rfl, ?_, ?_⟩
    · intro r hr
      simp at hr
    · intro _ r hr
      simp at hr

/-- C2 witness: the thrown-verifier case at a concrete reply, where the
appended message is the full reply itself. -/
theorem claim_C2_witness :
    appendedAssistantContent "All systems are healthy." (Except.error ()) =
      "All systems are healthy." := by
  have h := claim_C2_theorem defaultThreshold "All systems are healthy."
    emptyContext (Except.error ()) (Or.inr rfl)
  exact h.2.1 rfl

/-- C3: `VerificationEngine.verify` returns verified with confidence 1.0 when
claim extraction yields no claims; otherwise its confidence is the number of
verified claims divided by the total number of claims, and the verdict is
verified exactly when that ratio reaches the configured threshold (default
0.6). -/
theorem claim_C3_theorem (τ : ℚ) (resp : String) (ctx : VerificationContext) :
    (extractClaims resp = [] →
      (verify τ resp ctx).verified = true ∧ (verify τ resp ctx).confidence = 1) ∧
    (extractClaims resp ≠ [] →
      (verify τ resp ctx).confidence =
        (((verify τ resp ctx).claims.filter fun c => c.verified).length : ℚ) /
          ((verify τ resp ctx).claims.length : ℚ) ∧
      ((verify τ resp ctx).verified = true ↔
        τ ≤ (verify τ resp ctx).confidence)) := by
  constructor
  · intro h
    have h0 : (extractClaims resp).length = 0 := by simp [h]
    constructor <;> simp [verify, h0]
  · intro h
    have h0 : ¬(extractClaims resp).length = 0 := by
      simpa [List.length_eq_zero] using h
    have hvl : 0 < (verifyClaims (extractClaims resp) ctx).length := by
      rw [verifyClaims_length]
      exact Nat.pos_of_ne_zero h0
    constructor
    · simpa using verify_confidence_div τ resp ctx h
    · simp only [verify, h0, ite_false, if_neg, hvl, if_pos, ite_true,
        decide_eq_true_eq]

/-- C3 witness: the aggregation clause evaluated on the reply
"Hello! How can I help?" at the default threshold. -/
theorem claim_C3_witness :
    (verify defaultThreshold "Hello! How can I help?" emptyContext).confidence =
      (((verify defaultThreshold "Hello! How can I help?" emptyContext).claims.filter
          fun c => c.verified).length : ℚ) /
        ((verify defaultThreshold "Hello! How can I help?" emptyContext).claims.length : ℚ) ∧
    ((verify defaultThreshold "Hello! How can I help?" emptyContext).verified = true ↔
      defaultThreshold ≤
        (verify defaultThreshold "Hello! How can I help?" emptyContext).confidence) :=
  (claim_C3_theorem defaultThreshold "Hello! How can I help?" emptyContext).2 (by decide)

/-- C4: `SessionManager.interrupt` returns true and transitions the session to
`interrupted` exactly when the session exists in state `processing` or
`speaking`; in every other case it returns false, the whole store is
unchanged, and `Pipeline.interrupt` emits no event. -/
theorem claim_C4_theorem (st : PipeState) (sid : String) (now : ℤ) :
    ((interrupt st.sm sid now).1 = true ↔
      ∃ s, getSession st.sm sid = some s ∧
        (s.state = SessionState.processing ∨ s.state = SessionState.speaking)) ∧
    (∀ s, getSession st.sm sid = some s →
      (s.state = SessionState.processing ∨ s.state = SessionState.speaking) →
      getSession (interrupt st.sm sid now).2 sid =
        some { s with state := .interrupted, lastActivityAt := now }) ∧
    ((interrupt st.sm sid now).1 = false → (interrupt st.sm sid now).2 = st.sm) ∧
    ((interrupt st.sm sid now).1 = false →
      pipelineInterrupt st sid now = (st, [])) := by
  cases hs : getSession st.sm sid with
  | none =>
      have hint : interrupt st.sm sid now = (false, st.sm) := by
        unfold interrupt
        rw [hs]
      refine ⟨?_, ?_, ?_, ?_⟩
      · rw [hint]
        constructor
        · intro hfalse
          simp at hfalse
        · rintro ⟨s, hs', _⟩
          cases hs'
      · intro s hs' _
        cases hs'
      · intro _
        rw [hint]
      · intro _
        simp [pipelineInterrupt, hint, hs]
  | some s =>
      by_cases hstate : s.state = SessionState.processing ∨ s.state = SessionState.speaking
      · have hint : interrupt st.sm sid now =
            (true, updateSessionState st.sm sid .interrupted now) := by
          unfold interrupt
          rw [hs]
          simp [hstate]
        refine ⟨?_, ?_, ?_, ?_⟩
        · rw [hint]
          exact ⟨fun _ => ⟨s, rfl, hstate⟩, fun _ => rfl⟩
        · intro s' hs' _
          cases Option.some.inj hs'
          rw [hint]
          exact getSession_updateSessionState st.sm sid _ now s hs
        · intro hfalse
          rw [hint] at hfalse
          simp at hfalse
        · intro hfalse
          rw [hint] at hfalse
          simp at hfalse
      · have hint : interrupt st.sm sid now = (false, st.sm) := by
          unfold interrupt
          rw [hs]
          simp [hstate]
        refine ⟨?_, ?_, ?_, ?_⟩
        · rw [hint]
          constructor
          · intro hfalse
            simp at hfalse
          · rintro ⟨s', hs', hstate'⟩
            cases Option.some.inj hs'
            exact absurd hstate' hstate
        · intro s' hs' hstate'
          cases Option.some.inj hs'
          exact absurd hstate' hstate
        · intro _
          rw [hint]
        · intro _
          simp [pipelineInterrupt, hint]

/-- C4 witness: interrupting an unknown session id leaves the pipeline state
unchanged and emits nothing. -/
theorem claim_C4_witness :
    pipelineInterrupt ⟨smEmpty, [], []⟩ "nope" 0 = (⟨smEmpty, [], []⟩, []) := by
  have h := claim_C4_theorem ⟨smEmpty, [], []⟩ "nope" 0
  exact h.2.2.2 (by decide)

/-- C5 counterexample: the transcript "stob cancel" contains the configured
interrupt phrase "cancel" as a substring, yet `checkTranscript` classifies it
from the earlier phrase "stop" by fuzzy prefix match with confidence 0.75,
not 1.0 as the claim states. -/
theorem claim_C5_counterexample :
    "cancel" ∈ pipelineConfig.interruptWords ∧
    Js.containsL (Js.lowerL "cancel".toList)
      (Js.trimL (Js.lowerL "stob cancel".toList)) = true ∧
    (checkTranscript pipelineConfig ⟨none, true⟩ 0 "stob cancel").1 =
      some ⟨.interrupt, "stop", mkRat 3 4, 0⟩ ∧
    (mkRat 3 4 : ℚ) ≠ 1 := by
  refine ⟨?_, ?_, ?_, ?_⟩ <;> decide

/-- C5 (amended): outside the debounce window, an enabled service classifies
every transcript containing a configured interrupt phrase as an `interrupt`
detection — interrupt phrases are scanned before wake phrases, so this holds
even when the text also begins with a wake phrase — but the reported
confidence is 1.0 only when the substring-matched phrase is reached before
any fuzzy prefix match of an earlier configured phrase. -/
theorem claim_C5_theorem (cfg : Config) (st : ServiceState) (now : ℤ) (text : String)
    (hen : st.isEnabled = true)
    (hdeb : ∀ t, st.lastDetection = some t → cfg.debounceMs ≤ now - t)
    (hsub : ∃ w ∈ cfg.interruptWords,
      Js.containsL (Js.lowerL w.toList) (Js.trimL (Js.lowerL text.toList)) = true) :
    ((checkTranscript cfg st now text).1.map fun d => d.type) =
      some DetectionType.interrupt := by
  obtain ⟨d, hd⟩ := detectInterruptGo_isSome cfg.sensitivity now
    (Js.trimL (Js.lowerL text.toList)) cfg.interruptWords hsub
  have htype := detectInterruptGo_type cfg.sensitivity now
    (Js.trimL (Js.lowerL text.toList)) cfg.interruptWords d hd
  have hd2 : detectInterruptGo cfg.sensitivity now
      (Js.trimL (Js.lowerL text.data)) cfg.interruptWords = some d := hd
  cases hld : st.lastDetection with
  | none => simp [checkTranscript, hen, hld, detectInterruptWord, hd, hd2, htype]
  | some t =>
      have hn : ¬(now - t < cfg.debounceMs) := not_lt.mpr (hdeb t hld)
      simp [checkTranscript, hen, hld, hn, detectInterruptWord, hd, hd2, htype]

/-- C5 witness: the utterance "please stop" with the pipeline configuration,
outside any debounce window, classifies as an interrupt. -/
theorem claim_C5_witness :
    ((checkTranscript pipelineConfig ⟨none, true⟩ 0 "please stop").1.map
        fun d => d.type) = some DetectionType.interrupt :=
  claim_C5_theorem pipelineConfig ⟨none, true⟩ 0 "please stop" rfl
    (by intro t ht; cases ht) ⟨"stop", by decide, by decide⟩

/-- C6: when `processAudioEnd` runs on an existing session whose buffered
utterance is non-empty but shorter than 16000 bytes, the utterance is
discarded: no event is emitted (so in particular no transcript, llm or tts
event), control does not reach transcription, the buffer entry is cleared,
and the session returns to `idle`. -/
theorem claim_C6_theorem (st : PipeState) (sid : String) (now : ℤ) (s : Session)
    (chunks : List (List ℕ))
    (hs : getSession st.sm sid = some s)
    (hb : assocFind st.audioBuffers sid = some chunks)
    (hne : chunks ≠ [])
    (hshort : chunks.flatten.length < 16000) :
    (processAudioEndGate st sid now).2.1 = [] ∧
    (processAudioEndGate st sid now).2.2 = false ∧
    assocFind (processAudioEndGate st sid now).1.audioBuffers sid = none ∧
    getSession (processAudioEndGate st sid now).1.sm sid =
      some { s with state := .idle, lastActivityAt := now } := by
  have hlen : ¬chunks.length = 0 := by
    simpa [List.length_eq_zero] using hne
  have hshort2 : (List.map List.length chunks).sum < 16000 := by
    simpa using hshort
  have hrem : assocFind (assocRemove st.audioBuffers sid) sid =
      (none : Option (List (List ℕ))) := assocFind_assocRemove _ _
  have hupd := getSession_updateSessionState st.sm sid .idle now s hs
  refine ⟨?_, ?_, ?_, ?_⟩ <;>
    simp [processAudioEndGate, hs, hb, hlen, hshort, hshort2, hrem, hupd]

/-- C6 witness: a single 1-byte chunk on a listening session is discarded and
the session ends idle with an empty buffer and no event. -/
theorem claim_C6_witness :
    (processAudioEndGate pipeShortBuffer "s1" 3).2.1 = [] ∧
    (processAudioEndGate pipeShortBuffer "s1" 3).2.2 = false ∧
    assocFind (processAudioEndGate pipeShortBuffer "s1" 3).1.audioBuffers "s1" = none ∧
    getSession (processAudioEndGate pipeShortBuffer "s1" 3).1.sm "s1" =
      some { sessionListening with state := .idle, lastActivityAt := 3 } :=
  claim_C6_theorem pipeShortBuffer "s1" 3 sessionListening [[0]]
    (by decide) (by decide) (by decide) (by decide)

/-- C7 counterexample: claim extraction on "Hello! How can I help?" returns
one claim (the sentence "How can I help", longer than 10 characters and not
an opinion), not zero claims as the claim states. -/
theorem claim_C7_counterexample :
    (extractClaims "Hello! How can I help?").length = 1 ∧
    extractClaims "Hello! How can I help?" ≠ [] := by
  constructor <;> decide

/-- C7 (amended): on "Hello! How can I help?" with an empty context snapshot,
extraction yields exactly one factual claim ("How can I help"), which the
general-knowledge filter verifies with claim confidence 0.7, so `verify`
returns verified with overall confidence 1.0, one general-knowledge citation,
no warnings and no modified (disclaimer-appended) response. -/
theorem claim_C7_theorem :
    verify defaultThreshold "Hello! How can I help?" emptyContext =
      ⟨true, 1,
        [⟨"How can I help".toList, .factual, .fin (mkRat 7 10),
          some "general_knowledge", true⟩],
        [⟨"general_knowledge", true, "How can I help".toList, .factual⟩],
        [], none⟩ := by
  decide

/-- C8 counterexample: verifying "error bug apple" against a knowledge base
containing the same text produces a claim whose confidence is 5, outside the
closed interval [0,1]: the key-term weighting inflates the intersection (5)
above the unweighted union (1). -/
theorem claim_C8_counterexample :
    (verify defaultThreshold "error bug apple" knowledgeCtx).claims.map
        (fun c => c.confidence) = [.fin 5] ∧
    ¬((5 : ℚ) ≤ 1) := by
  constructor
  · decide
  · norm_num

/-- C8 (amended): every claim returned by `verify` has confidence 0.2, 0.7,
or a weighted-similarity score of at least 0.5; the scores are nonnegative
but are not bounded by 1 (and can even be the JavaScript `Infinity`), because
the key-term weights enlarge only the intersection of the Jaccard quotient. -/
theorem claim_C8_theorem (τ : ℚ) (resp : String) (ctx : VerificationContext)
    (c : VClaim) (hc : c ∈ (verify τ resp ctx).claims) :
    c.confidence = .fin (mkRat 1 5) ∨ c.confidence = .fin (mkRat 7 10) ∨
      JNum.leB (.fin (mkRat 1 2)) c.confidence = true := by
  by_cases h : (extractClaims resp).length = 0
  · simp [verify, h] at hc
  · simp only [verify, h, ite_false, if_neg] at hc
    exact verifyClaims_confidence_shape (extractClaims resp) ctx c hc

/-- C8 witness: the amended bound instantiated at the confidence-5 claim of
the counterexample input. -/
theorem claim_C8_witness :
    sampleClaimHighSim.confidence = .fin (mkRat 1 5) ∨
    sampleClaimHighSim.confidence = .fin (mkRat 7 10) ∨
    JNum.leB (.fin (mkRat 1 2)) sampleClaimHighSim.confidence = true :=
  claim_C8_theorem defaultThreshold "error bug apple" knowledgeCtx
    sampleClaimHighSim (by decide)

/-- C9: within the configured debounce interval after the last positive
classification, `checkTranscript` returns null whatever the text, leaving the
state unchanged; and any positive result implies the debounce window was
clear (no prior positive, or at least `debounceMs` elapsed) and records the
current time as the new last detection. -/
theorem claim_C9_theorem (cfg : Config) (st : ServiceState) (now : ℤ) (text : String) :
    (∀ t, st.lastDetection = some t → now - t < cfg.debounceMs →
      checkTranscript cfg st now text = (none, st)) ∧
    (∀ d st2, checkTranscript cfg st now text = (some d, st2) →
      st2.lastDetection = some now ∧
      (st.lastDetection = none ∨
        ∀ t, st.lastDetection = some t → cfg.debounceMs ≤ now - t)) := by
  constructor
  · intro t ht hlt
    cases hen : st.isEnabled with
    | false => simp [checkTranscript, hen]
    | true => simp [checkTranscript, hen, ht, hlt]
  · intro d st2 h
    cases hen : st.isEnabled with
    | false => simp [checkTranscript, hen] at h
    | true =>
        cases hld : st.lastDetection with
        | some t =>
            by_cases hlt : now - t < cfg.debounceMs
            · simp [checkTranscript, hen, hld, hlt] at h
            · rcases hi : detectInterruptWord cfg now (Js.trimL (Js.lowerL text.data)) with _ | d1
              · rcases hw : detectWakeWord cfg now (Js.trimL (Js.lowerL text.data)) with _ | d2
                · simp [checkTranscript, hen, hld, hlt, hi, hw] at h
                · simp [checkTranscript, hen, hld, hlt, hi, hw] at h
                  refine ⟨?_, Or.inr ?_⟩
                  · rw [← h.2]
                  · intro t' ht'
                    cases Option.some.inj ht'
                    exact not_lt.mp hlt
              · simp [checkTranscript, hen, hld, hlt, hi] at h
                refine ⟨?_, Or.inr ?_⟩
                · rw [← h.2]
                · intro t' ht'
                  cases Option.some.inj ht'
                  exact not_lt.mp hlt
        | none =>
            rcases hi : detectInterruptWord cfg now (Js.trimL (Js.lowerL text.data)) with _ | d1
            · rcases hw : detectWakeWord cfg now (Js.trimL (Js.lowerL text.data)) with _ | d2
              · simp [checkTranscript, hen, hld, hi, hw] at h
              · simp [checkTranscript, hen, hld, hi, hw] at h
                exact ⟨by rw [← h.2], Or.inl rfl⟩
            · simp [checkTranscript, hen, hld, hi] at h
              exact ⟨by rw [← h.2], Or.inl rfl⟩

/-- C9 witness: 500 ms after a positive at time 0 with a 1000 ms debounce,
even the interrupt phrase "please stop" yields null and the state is kept. -/
theorem claim_C9_witness :
    checkTranscript pipelineConfig ⟨some 0, true⟩ 500 "please stop" =
      (none, ⟨some 0, true⟩) :=
  (claim_C9_theorem pipelineConfig ⟨some 0, true⟩ 500 "please stop").1 0 rfl
    (by decide)

/-- C10: for a session id not present in the store,
`SessionManager.updateSessionState` and `SessionManager.endSession` leave the
whole store (sessions and conversations) unchanged, and
`SessionManager.interrupt` returns false with the store unchanged; all three
are total functions, so none can throw. -/
theorem claim_C10_theorem (sm : SMState) (sid : String) (ns : SessionState)
    (now : ℤ) (h : getSession sm sid = none) :
    updateSessionState sm sid ns now = sm ∧
    endSession sm sid = sm ∧
    interrupt sm sid now = (false, sm) := by
  refine ⟨?_, ?_, ?_⟩ <;> simp [updateSessionState, endSession, interrupt, h]

/-- C10 witness: the three operations on an unknown id over the empty store.
-/
theorem claim_C10_witness :
    updateSessionState smEmpty "ghost" .listening 0 = smEmpty ∧
    endSession smEmpty "ghost" = smEmpty ∧
    interrupt smEmpty "ghost" 0 = (false, smEmpty) :=
  claim_C10_theorem smEmpty "ghost" .listening 0 (by decide)
